/-
Verification of the GophKeeper server core against its specification.

The development shallowly embeds the Go sources:
  server/crypto/crypto.go        (field cipher wrapper: Encrypt, Decrypt)
  server/auth/jwt.go             (CreateToken and the package secret)
  server/auth/interceptor.go     (GetUserIDFromContext)
  server/interceptor (auth part) (AuthInterceptor, StreamAuthInterceptor)
  server/api/user_service.go     (Register, Login)
  server/api (vault part)        (SaveCardData, GetVaultItems, SaveMeta, response building)
  server/service/vault.go        (VaultService dispatch and aggregation)
  server/repository              (row stores as in-memory lists of rows)

Byte strings are modelled as List Nat, Go strings as String (Go converts
between the two losslessly for the fields in scope), the relational store as
lists of row structures, and package-level mutable state by explicit state
passing.  Fallible Go functions return Except.  A gRPC error either carries a
status code (status.Error) or is a plain Go error, which the gRPC runtime
surfaces to the client with code Unknown.
-/
import Mathlib

set_option autoImplicit false

namespace GophKeeper

/-- gRPC status codes used by the server. -/
inductive Code where
  | ok
  | invalidArgument
  | unauthenticated
  | alreadyExists
  | notFound
  | internal
  | unknown
  deriving DecidableEq, Repr

/-- An error returned by a handler: either a status error carrying a gRPC
code, or a plain Go error, which gRPC delivers with code Unknown. -/
inductive GrpcError where
  | status (c : Code) (msg : String)
  | plain (msg : String)
  deriving DecidableEq, Repr

/-- The gRPC code the client observes for an error. -/
def GrpcError.code : GrpcError → Code
  | .status c _ => c
  | .plain _ => .unknown

/-! ## FieldCipher: server/crypto/crypto.go

Go wraps an AES-GCM AEAD from the standard library.  The AEAD itself is not
part of this repository, so it is kept abstract as a structure of operations;
the wrapper logic of crypto.go (nonce generation, prepending the nonce,
length check on decryption, splitting nonce from body) is embedded exactly.
The fresh random nonce produced by rand.Read is a parameter of Encrypt; its
length always equals the nonce size of the AEAD. -/

/-- An authenticated-encryption scheme, as the Go standard library presents
cipher.AEAD to crypto.go: sealAE never fails, openAE (gcm.Open) fails on a bad
tag by returning none. -/
structure AEAD where
  nonceSize : Nat
  sealAE : List Nat → List Nat → List Nat
  openAE : List Nat → List Nat → Option (List Nat)

/-- The AEAD contract guaranteed by the Go standard library for AES-GCM:
opening a sealed message with the sealing nonce returns the plaintext. -/
def AEAD.Correct (g : AEAD) : Prop :=
  ∀ n p, n.length = g.nonceSize → g.openAE n (g.sealAE n p) = some p

/-- crypto.go Encrypt: seals the plaintext, with the nonce prepended to the
ciphertext (gcm.Seal with the nonce as destination buffer). -/
def Encrypt (g : AEAD) (nonce plaintext : List Nat) : List Nat :=
  nonce ++ g.sealAE nonce plaintext

/-- crypto.go Decrypt: rejects inputs shorter than the nonce size, then
splits off the nonce and opens the remainder. -/
def Decrypt (g : AEAD) (ciphertext : List Nat) : Except String (List Nat) :=
  if ciphertext.length < g.nonceSize then
    .error "ciphertext too short"
  else
    match g.openAE (ciphertext.take g.nonceSize) (ciphertext.drop g.nonceSize) with
    | some p => .ok p
    | none => .error "cipher: message authentication failed"

/-- A concrete AEAD instance used to exercise the wrapper on closed inputs:
the sealed body is the plaintext followed by a one-byte tag, and openAE
accepts exactly that shape. -/
def demoAEAD : AEAD where
  nonceSize := 12
  sealAE := fun _ p => p ++ [7]
  openAE := fun _ c =>
    match c.getLast? with
    | some 7 => some c.dropLast
    | _ => none

theorem demoAEAD_correct : demoAEAD.Correct := by
  intro n p _
  simp [demoAEAD, AEAD.Correct, List.getLast?_concat, List.dropLast_concat]

/-! ## TokenIssuer: server/auth/jwt.go

The package holds one mutable variable, hmacSampleSecret, initialized from
the JWT_SECRET environment variable (possibly to the empty string).  It is
modelled as an explicit state threaded through CreateToken, which in the Go
code reassigns the variable when it is empty. -/

/-- The mutable package state of server/auth: the signing secret. -/
structure AuthState where
  hmacSampleSecret : String
  deriving DecidableEq, Repr

/-- The claims jwt.go signs, together with the secret used for the MAC. -/
structure SignedToken where
  userID : String
  issuedAt : Nat
  expiresAt : Nat
  notBefore : Nat
  secret : String
  deriving DecidableEq, Repr

/-- Modelled from the spec: the JWT library method SignedString, which is not
part of this repository, encodes header, claims and MAC as three dot-joined
base64 segments; only its shape (a nonempty string determined by the claims
and the secret) matters here. -/
def SignedToken.serialize (t : SignedToken) : String :=
  "eyJhbGciOiJIUzI1NiJ9." ++ t.userID ++ "." ++ toString t.expiresAt ++ "." ++ t.secret

/-- jwt.go CreateToken: when the package secret is empty (JWT_SECRET unset)
the call first assigns the fallback dev secret to the package variable, then
signs claims with issued-at and not-before now and expiry now plus ttl.  The
package state after the call is returned with the token. -/
def CreateToken (st : AuthState) (userID : String) (ttl now : Nat) :
    AuthState × SignedToken :=
  let secret := if st.hmacSampleSecret = "" then "dev-secret" else st.hmacSampleSecret
  (⟨secret⟩, ⟨userID, now, now + ttl, now, secret⟩)

/-! ## Call context, metadata and the auth interceptors

Two packages define context keys for the user id: package interceptor uses a
private empty-struct key (userIDKey) and package auth uses its own key
(UserIDKey).  Go compares context keys by dynamic type and value, so the two
keys are distinct; the model keeps them as distinct constructors.  A Go
context is modelled as the list of values attached to it, newest first, and
call metadata as a list of header entries.  The store that handlers may
mutate is threaded explicitly: the interceptors themselves never touch it,
returning it unchanged whenever they reject a call. -/

/-- A context key: the two packages use distinct keys. -/
inductive CtxKey where
  | interceptorUserID
  | authUserID
  deriving DecidableEq, Repr, BEq

abbrev Context := List (CtxKey × String)

/-- context.Value: the most recently attached value for the key. -/
def Context.value (ctx : Context) (k : CtxKey) : Option String :=
  (ctx.find? fun p => p.1 == k).map (·.2)

/-- context.WithValue. -/
def Context.withValue (ctx : Context) (k : CtxKey) (v : String) : Context :=
  (k, v) :: ctx

abbrev Metadata := List (String × List String)

/-- metadata.MD.Get: the values stored under a header key, empty if absent. -/
def Metadata.get (md : Metadata) (k : String) : List String :=
  ((md.find? fun p => p.1 == k).map (·.2)).getD []

/-- auth/interceptor.go GetUserIDFromContext: reads the auth package key. -/
def GetUserIDFromContext (ctx : Context) : Except GrpcError String :=
  match ctx.value .authUserID with
  | some id => .ok id
  | none => .error (.status .internal "user ID not found in context")

/-- interceptor package UserIDFromContext: reads the interceptor package key. -/
def UserIDFromContext (ctx : Context) : Except GrpcError String :=
  match ctx.value .interceptorUserID with
  | some id => .ok id
  | none => .error (.status .unauthenticated "no user id in context")

structure UnaryServerInfo where
  fullMethod : String

structure StreamServerInfo where
  fullMethod : String

/-- The methods the unary auth interceptor skips. -/
def exemptMethods : List String :=
  ["/v1.user.UserService/Register", "/v1.user.UserService/Login"]

/-- interceptor package AuthInterceptor (unary): skips the two user service
methods, otherwise requires metadata with an authorization entry whose first
value validates, attaches the resolved user id under the interceptor package
key and invokes the handler on the enriched context.  validate stands for
auth.ParseAndValidate; md is the result of metadata.FromIncomingContext. -/
def AuthInterceptor {σ α : Type} (validate : String → Except String String)
    (ctx : Context) (md : Option Metadata) (info : UnaryServerInfo)
    (handler : Context → σ → σ × Except GrpcError α) (st : σ) :
    σ × Except GrpcError α :=
  if info.fullMethod ∈ exemptMethods then handler ctx st
  else
    match md with
    | none => (st, .error (.status .unauthenticated "no metadata in context"))
    | some m =>
      match m.get "authorization" with
      | [] => (st, .error (.status .unauthenticated "no token provided"))
      | t :: _ =>
        match validate t with
        | .error e => (st, .error (.status .unauthenticated ("invalid token: " ++ e)))
        | .ok userID => handler (ctx.withValue .interceptorUserID userID) st

/-- interceptor package StreamAuthInterceptor: validates the token on every
stream call; unlike the unary interceptor it never consults the method name,
so it has no exemption set. -/
def StreamAuthInterceptor {σ : Type} (validate : String → Except String String)
    (ctx : Context) (md : Option Metadata) (_info : StreamServerInfo)
    (handler : Context → σ → σ × Except GrpcError Unit) (st : σ) :
    σ × Except GrpcError Unit :=
  match md with
  | none => (st, .error (.status .unauthenticated "no metadata in context"))
  | some m =>
    match m.get "authorization" with
    | [] => (st, .error (.status .unauthenticated "no token provided"))
    | t :: _ =>
      match validate t with
      | .error e => (st, .error (.status .unauthenticated ("invalid token: " ++ e)))
      | .ok userID => handler (ctx.withValue .interceptorUserID userID) st

/-- A concrete token validator standing for auth.ParseAndValidate: it accepts
one particular token for one particular user. -/
def demoValidate : String → Except String String :=
  fun t => if t = "good-token" then .ok "user-1" else .error "token is malformed"

/-! ## VaultStore: server/repository

Each table is a list of rows; SELECT ... WHERE is list filtering, INSERT is
appending a row (with created_at and updated_at set to the insertion time, as
in the Go queries), DELETE ... WHERE removes every matching row.  Ids and
uuids are strings. -/

structure LoginPasswordRow where
  id : String
  userId : String
  login : String
  password : String
  createdAt : Nat
  updatedAt : Nat
  deriving DecidableEq, Repr

structure TextRow where
  id : String
  userId : String
  text : String
  createdAt : Nat
  updatedAt : Nat
  deriving DecidableEq, Repr

structure BinRow where
  id : String
  userId : String
  data : List Nat
  createdAt : Nat
  updatedAt : Nat
  deriving DecidableEq, Repr

structure CardRow where
  id : String
  userId : String
  number : String
  cvv : String
  holder : String
  expYear : Nat
  expMonth : Nat
  createdAt : Nat
  updatedAt : Nat
  deriving DecidableEq, Repr

structure MetaRow where
  id : String
  relation : String
  name : String
  data : String
  createdAt : Nat
  updatedAt : Nat
  deriving DecidableEq, Repr

structure Store where
  loginPasswords : List LoginPasswordRow
  textData : List TextRow
  binaryData : List BinRow
  cardData : List CardRow
  metas : List MetaRow
  deriving DecidableEq, Repr

def emptyStore : Store := ⟨[], [], [], [], []⟩

namespace Repo

def GetLoginPasswords (st : Store) (userId : String) : List LoginPasswordRow :=
  st.loginPasswords.filter fun r => r.userId == userId

def InsertLoginPassword (st : Store) (lp : LoginPasswordRow) (now : Nat) : Store :=
  { st with loginPasswords :=
      st.loginPasswords ++ [{ lp with createdAt := now, updatedAt := now }] }

def DeleteLoginPassword (st : Store) (id userId : String) : Store :=
  { st with loginPasswords :=
      st.loginPasswords.filter fun r => !(r.id == id && r.userId == userId) }

def GetTextData (st : Store) (userId : String) : List TextRow :=
  st.textData.filter fun r => r.userId == userId

def InsertTextData (st : Store) (td : TextRow) (now : Nat) : Store :=
  { st with textData := st.textData ++ [{ td with createdAt := now, updatedAt := now }] }

def DeleteTextData (st : Store) (id userId : String) : Store :=
  { st with textData := st.textData.filter fun r => !(r.id == id && r.userId == userId) }

def GetBinaryData (st : Store) (userId : String) : List BinRow :=
  st.binaryData.filter fun r => r.userId == userId

def InsertBinaryData (st : Store) (bd : BinRow) (now : Nat) : Store :=
  { st with binaryData := st.binaryData ++ [{ bd with createdAt := now, updatedAt := now }] }

def DeleteBinaryData (st : Store) (id userId : String) : Store :=
  { st with binaryData := st.binaryData.filter fun r => !(r.id == id && r.userId == userId) }

def GetCardData (st : Store) (userId : String) : List CardRow :=
  st.cardData.filter fun r => r.userId == userId

def InsertCardData (st : Store) (cd : CardRow) (now : Nat) : Store :=
  { st with cardData := st.cardData ++ [{ cd with createdAt := now, updatedAt := now }] }

def DeleteCardData (st : Store) (id userId : String) : Store :=
  { st with cardData := st.cardData.filter fun r => !(r.id == id && r.userId == userId) }

def GetMetaForItem (st : Store) (relationId : String) : List MetaRow :=
  st.metas.filter fun m => m.relation == relationId

def InsertMeta (st : Store) (m : MetaRow) (now : Nat) : Store :=
  { st with metas := st.metas ++ [{ m with createdAt := now, updatedAt := now }] }

end Repo

/-! ## VaultService: server/service/vault.go -/

/-- The aggregate the service returns; in Go the meta field is a map from
item id to the list of meta rows attached to that item.  The map is modelled
as the association list produced in item id order. -/
structure VaultItems where
  loginPasswords : List LoginPasswordRow
  textData : List TextRow
  binaryData : List BinRow
  cardData : List CardRow
  meta : List (String × List MetaRow)
  deriving DecidableEq, Repr

namespace Service

/-- The item ids vault.go GetVaultItems collects from the four fetched
collections of the user. -/
def itemIds (st : Store) (userId : String) : List String :=
  (Repo.GetLoginPasswords st userId).map (·.id)
    ++ (Repo.GetTextData st userId).map (·.id)
    ++ (Repo.GetBinaryData st userId).map (·.id)
    ++ (Repo.GetCardData st userId).map (·.id)

/-- vault.go GetVaultItems: fetch the four collections for the user, collect
all their item ids, and for each id fetch its meta rows, keeping nonempty
lists only. -/
def GetVaultItems (st : Store) (userId : String) : VaultItems :=
  ⟨Repo.GetLoginPasswords st userId, Repo.GetTextData st userId,
   Repo.GetBinaryData st userId, Repo.GetCardData st userId,
   (itemIds st userId).filterMap fun i =>
     let ms := Repo.GetMetaForItem st i
     if ms.isEmpty then none else some (i, ms)⟩

def SaveLoginPassword (st : Store) (lp : LoginPasswordRow) (now : Nat) :
    Store × Except GrpcError Unit :=
  (Repo.InsertLoginPassword st lp now, .ok ())

def SaveTextData (st : Store) (td : TextRow) (now : Nat) : Store × Except GrpcError Unit :=
  (Repo.InsertTextData st td now, .ok ())

def SaveBinaryData (st : Store) (bd : BinRow) (now : Nat) : Store × Except GrpcError Unit :=
  (Repo.InsertBinaryData st bd now, .ok ())

def SaveCardData (st : Store) (cd : CardRow) (now : Nat) : Store × Except GrpcError Unit :=
  (Repo.InsertCardData st cd now, .ok ())

/-- vault.go SaveMeta: inserts the entries one by one; no check that the
relation refers to an existing item or to an item of the caller. -/
def SaveMeta (st : Store) (metas : List MetaRow) (now : Nat) : Store × Except GrpcError Unit :=
  (metas.foldl (fun s m => Repo.InsertMeta s m now) st, .ok ())

/-- vault.go DeleteVaultItem: dispatch on the type tag, delete scoped to
(id, userId); any other tag falls to the default branch returning nil. -/
def DeleteVaultItem (st : Store) (id userId itemType : String) :
    Store × Except GrpcError Unit :=
  if itemType = "login_password" then (Repo.DeleteLoginPassword st id userId, .ok ())
  else if itemType = "text" then (Repo.DeleteTextData st id userId, .ok ())
  else if itemType = "binary" then (Repo.DeleteBinaryData st id userId, .ok ())
  else if itemType = "card" then (Repo.DeleteCardData st id userId, .ok ())
  else (st, .ok ())

end Service

/-! ## VaultServer: server/api vault service

The handlers run after the auth interceptor; the user id they obtain from the
context is a parameter here.  The expiry of a card travels as a string in the
layout 2006-01 (year dash month), parsed by time.Parse on save and produced
by time.Format on read. -/

def digit? (c : Char) : Option Nat :=
  if c.isDigit then some (c.toNat - 48) else none

/-- time.Parse with layout 2006-01: four year digits, a dash, two month
digits, month between 1 and 12. -/
def parseYearMonth (s : String) : Option (Nat × Nat) :=
  match s.data with
  | [y1, y2, y3, y4, sep, m1, m2] =>
    if sep = '-' then
      match digit? y1, digit? y2, digit? y3, digit? y4, digit? m1, digit? m2 with
      | some a, some b, some c, some d, some e, some f =>
        let y := ((a * 10 + b) * 10 + c) * 10 + d
        let m := e * 10 + f
        if 1 ≤ m ∧ m ≤ 12 then some (y, m) else none
      | _, _, _, _, _, _ => none
    else none
  | _ => none

def pad2 (n : Nat) : String := if n < 10 then "0" ++ toString n else toString n

def pad4 (n : Nat) : String :=
  if n < 10 then "000" ++ toString n
  else if n < 100 then "00" ++ toString n
  else if n < 1000 then "0" ++ toString n
  else toString n

/-- time.Format with layout 2006-01. -/
def formatYearMonth (y m : Nat) : String := pad4 y ++ "-" ++ pad2 m

structure SaveCardDataRequest where
  number : String
  holder : String
  expire : String
  cvv : String
  deriving DecidableEq, Repr

structure SaveMetaEntry where
  key : String
  value : String
  itemId : String
  deriving DecidableEq, Repr

structure ProtoVaultItem where
  id : String
  userId : String
  createdAt : Nat
  updatedAt : Nat
  deriving DecidableEq, Repr

structure ProtoLoginPassword where
  base : ProtoVaultItem
  login : String
  password : String
  deriving DecidableEq, Repr

structure ProtoTextData where
  base : ProtoVaultItem
  text : String
  deriving DecidableEq, Repr

structure ProtoBinaryData where
  base : ProtoVaultItem
  data : List Nat
  deriving DecidableEq, Repr

structure ProtoCardData where
  base : ProtoVaultItem
  number : String
  holder : String
  expire : String
  cvv : String
  deriving DecidableEq, Repr

structure ProtoMeta where
  base : ProtoVaultItem
  key : String
  value : String
  itemId : String
  deriving DecidableEq, Repr

structure GetVaultItemsResponse where
  loginPasswords : List ProtoLoginPassword
  textData : List ProtoTextData
  binaryData : List ProtoBinaryData
  cardData : List ProtoCardData
  meta : List (String × ProtoMeta)
  deriving DecidableEq, Repr

/-- The proto message built for one meta row in the GetVaultItems response:
the base carries the meta row id and, in the user id slot, the relation. -/
def protoOfMeta (m : MetaRow) : ProtoMeta :=
  ⟨⟨m.id, m.relation, m.createdAt, m.updatedAt⟩, m.name, m.data, m.relation⟩

namespace Api

/-- Assignment into the Go response map meta[k] = v: replace the entry for an
existing key, otherwise add one. -/
def metaMapInsert (m : List (String × ProtoMeta)) (k : String) (v : ProtoMeta) :
    List (String × ProtoMeta) :=
  if m.any fun p => p.1 == k then
    m.map fun p => if p.1 == k then (k, v) else p
  else
    m ++ [(k, v)]

/-- api SaveCardData after the user id is read from the context: parses the
expiry with layout 2006-01, builds the model row with the request bytes for
number and cvv unchanged — no call into the crypto package exists on this
path — and persists through the service. -/
def SaveCardData (st : Store) (userId itemId : String) (req : SaveCardDataRequest)
    (now : Nat) : Store × Except GrpcError String :=
  match parseYearMonth req.expire with
  | none => (st, .error (.plain ("parsing time " ++ req.expire ++ " as 2006-01: cannot parse")))
  | some ym =>
    let cd : CardRow :=
      { id := itemId, userId := userId, number := req.number, cvv := req.cvv,
        holder := req.holder, expYear := ym.1, expMonth := ym.2,
        createdAt := now, updatedAt := now }
    match Service.SaveCardData st cd now with
    | (st2, .ok _) => (st2, .ok itemId)
    | (st2, .error e) => (st2, .error e)

/-- api SaveMeta after the user id is read from the context: builds a meta
row per entry with a fresh id and the caller-supplied item id as relation —
the caller identity takes no part in the rows — and persists the batch. -/
def SaveMeta (st : Store) (entries : List SaveMetaEntry) (freshIds : List String)
    (now : Nat) : Store × Except GrpcError Unit :=
  let rows := (entries.zip freshIds).map fun p =>
    MetaRow.mk p.2 p.1.itemId p.1.key p.1.value now now
  Service.SaveMeta st rows now

/-- api GetVaultItems after the user id is read from the context: converts
each model row to its proto message — the stored number and cvv bytes are
returned as strings unchanged, and no call into the crypto package exists on
this path — and flattens the meta aggregate into the response map, assigning
each entry under the id of the meta row itself. -/
def GetVaultItems (st : Store) (userId : String) :
    Except GrpcError GetVaultItemsResponse :=
  let items := Service.GetVaultItems st userId
  let lps := items.loginPasswords.map fun lp =>
    ProtoLoginPassword.mk ⟨lp.id, lp.userId, lp.createdAt, lp.updatedAt⟩ lp.login lp.password
  let tds := items.textData.map fun td =>
    ProtoTextData.mk ⟨td.id, td.userId, td.createdAt, td.updatedAt⟩ td.text
  let bds := items.binaryData.map fun bd =>
    ProtoBinaryData.mk ⟨bd.id, bd.userId, bd.createdAt, bd.updatedAt⟩ bd.data
  let cds := items.cardData.map fun cd =>
    ProtoCardData.mk ⟨cd.id, cd.userId, cd.createdAt, cd.updatedAt⟩ cd.number cd.holder
      (formatYearMonth cd.expYear cd.expMonth) cd.cvv
  let meta := items.meta.foldl
    (fun acc p => p.2.foldl (fun acc2 m => metaMapInsert acc2 m.id (protoOfMeta m)) acc)
    []
  .ok ⟨lps, tds, bds, cds, meta⟩

end Api

/-! ## CredentialStore and IdentityService: server/api/user_service.go -/

/-- Modelled from the spec: a bcrypt hash (library code, not in this
repository).  The model keeps salt and password so that comparison is
definable; it stands for the bcrypt contract that Verify(Hash(p), q) succeeds
exactly when p equals q. -/
structure BcryptHash where
  salt : Nat
  password : String
  deriving DecidableEq, Repr

/-- Modelled from the spec: bcrypt.GenerateFromPassword with a per-call
random salt, given here as a parameter. -/
def bcryptGenerate (salt : Nat) (password : String) : BcryptHash := ⟨salt, password⟩

/-- Modelled from the spec: bcrypt.CompareHashAndPassword. -/
def bcryptCompare (h : BcryptHash) (password : String) : Bool := h.password == password

structure UserRow where
  id : String
  login : String
  password : BcryptHash
  deriving DecidableEq, Repr

structure UserRepo where
  users : List UserRow
  nextId : Nat
  deriving DecidableEq, Repr

def emptyUserRepo : UserRepo := ⟨[], 0⟩

/-- repository GetUserByLogin: the row whose login matches, if any; in Go an
absent row surfaces as the raw no-rows error of the driver. -/
def GetUserByLogin (r : UserRepo) (login : String) : Option UserRow :=
  r.users.find? fun u => u.login == login

/-- repository InsertUser: the unique constraint on login makes a duplicate
insert fail with the raw driver error; otherwise the row is stored under a
generated id which is returned. -/
def InsertUser (r : UserRepo) (login : String) (password : BcryptHash) :
    UserRepo × Except GrpcError String :=
  if r.users.any fun u => u.login == login then
    (r, .error (.plain "duplicate key value violates unique constraint"))
  else
    let id := "id-" ++ toString r.nextId
    (⟨r.users ++ [⟨id, login, password⟩], r.nextId + 1⟩, .ok id)

/-- user_service.go Register: hashes the password with bcrypt and inserts the
user.  There is no validation of the inputs and no mapping of store errors;
whatever the repository returns is passed to the caller unchanged, and no
token is created. -/
def Register (r : UserRepo) (login password : String) (salt : Nat) :
    UserRepo × Except GrpcError Unit :=
  let hashed := bcryptGenerate salt password
  match InsertUser r login hashed with
  | (r2, .ok _) => (r2, .ok ())
  | (r2, .error e) => (r2, .error e)

/-- user_service.go Login: looks up the user by login, compares the stored
bcrypt hash with the supplied password, and on success returns the token
from CreateToken with a 24 hour ttl.  Lookup and comparison failures return
the raw library errors unchanged. -/
def Login (r : UserRepo) (st : AuthState) (login password : String) (now : Nat) :
    AuthState × Except GrpcError String :=
  match GetUserByLogin r login with
  | none => (st, .error (.plain "no rows in result set"))
  | some u =>
    if bcryptCompare u.password password then
      let res := CreateToken st u.id (24 * 60 * 60) now
      (res.1, .ok res.2.serialize)
    else
      (st, .error (.plain "crypto/bcrypt: hashedPassword is not the hash of the given password"))

/-! # Claims -/

/-- C7: for every byte sequence p, Decrypt applied to the result of Encrypt
on p returns p (for a nonce of the proper length and an AEAD meeting the
library contract), and on every input shorter than the nonce size Decrypt
fails with an error instead of returning any plaintext. -/
theorem decrypt_encrypt_roundtrip_and_short_input_fails
    (g : AEAD) (hg : g.Correct) :
    (∀ nonce p, nonce.length = g.nonceSize →
        Decrypt g (Encrypt g nonce p) = .ok p)
    ∧ (∀ c, c.length < g.nonceSize →
        Decrypt g c = .error "ciphertext too short") := by
  constructor
  · intro nonce p hn
    have hlen : ¬ (Encrypt g nonce p).length < g.nonceSize := by
      simp only [Encrypt, List.length_append, hn]
      omega
    have htake : (Encrypt g nonce p).take g.nonceSize = nonce := by
      simp only [Encrypt]
      rw [← hn, List.take_left]
    have hdrop : (Encrypt g nonce p).drop g.nonceSize = g.sealAE nonce p := by
      simp only [Encrypt]
      rw [← hn, List.drop_left]
    simp only [Decrypt, if_neg hlen, htake, hdrop, hg nonce p hn]
  · intro c hc
    simp only [Decrypt, if_pos hc]

/-- Witness for C7 at a concrete AEAD, nonce and plaintext. -/
theorem decrypt_encrypt_roundtrip_and_short_input_fails_witness :
    Decrypt demoAEAD (Encrypt demoAEAD (List.replicate 12 0) [4, 1, 1, 1]) = .ok [4, 1, 1, 1]
    ∧ Decrypt demoAEAD [9] = .error "ciphertext too short" :=
  ⟨(decrypt_encrypt_roundtrip_and_short_input_fails demoAEAD demoAEAD_correct).1
      (List.replicate 12 0) [4, 1, 1, 1] (by decide),
   (decrypt_encrypt_roundtrip_and_short_input_fails demoAEAD demoAEAD_correct).2
      [9] (by decide)⟩

/-- C9 counterexample: a CreateToken call made while the process-wide secret
is empty (JWT_SECRET unset) changes the secret, so the secret is not the same
before and after every call. -/
theorem createToken_mutates_empty_secret :
    (CreateToken ⟨""⟩ "user-1" 86400 0).1 ≠ AuthState.mk "" := by
  decide

/-- C9 amended: the signing secret is immutable on every CreateToken call
that finds it nonempty, and after any CreateToken call it is nonempty — so
the one mutation is the first call installing the dev fallback when
JWT_SECRET was unset, after which the secret never changes. -/
theorem createToken_secret_immutable_once_nonempty (u : String) (ttl now : Nat) :
    (∀ st : AuthState, st.hmacSampleSecret ≠ "" → (CreateToken st u ttl now).1 = st)
    ∧ (∀ st : AuthState, (CreateToken st u ttl now).1.hmacSampleSecret ≠ "") := by
  constructor
  · intro st h
    cases st
    simp_all [CreateToken]
  · intro st
    simp only [CreateToken]
    split
    · simp
    · simp_all

/-- Witness for C9 amended at concrete states. -/
theorem createToken_secret_immutable_once_nonempty_witness :
    (CreateToken ⟨"prod-secret"⟩ "user-1" 86400 0).1 = AuthState.mk "prod-secret"
    ∧ (CreateToken ⟨""⟩ "user-1" 86400 0).1.hmacSampleSecret ≠ "" :=
  ⟨(createToken_secret_immutable_once_nonempty "user-1" 86400 0).1 ⟨"prod-secret"⟩ (by decide),
   (createToken_secret_immutable_once_nonempty "user-1" 86400 0).2 ⟨""⟩⟩

/-- C2 (code bug): on a non-exempt call with a valid token for user-1 the
unary auth interceptor does attach the resolved user id to the context — the
getter of the interceptor package sees it — but the handlers read the context
through auth.GetUserIDFromContext, whose key belongs to the auth package and
differs from the interceptor package key, so the invoked handler receives an
Internal error instead of the user id. -/
theorem authInterceptor_key_mismatch_breaks_handler :
    AuthInterceptor demoValidate [] (some [("authorization", ["good-token"])])
        ⟨"/v1.vault.VaultService/GetVaultItems"⟩
        (fun c (st : Unit) => (st, GetUserIDFromContext c)) ()
      = ((), .error (.status .internal "user ID not found in context"))
    ∧ AuthInterceptor demoValidate [] (some [("authorization", ["good-token"])])
        ⟨"/v1.vault.VaultService/GetVaultItems"⟩
        (fun c (st : Unit) => (st, UserIDFromContext c)) ()
      = ((), .ok "user-1") :=
  ⟨rfl, rfl⟩

/-- C3 counterexample: a stream call to the exempt method Register carrying no
token is not passed through unchanged: the stream interceptor has no
exemption set, so it rejects the call with Unauthenticated and never invokes
the handler, which would have returned ok. -/
theorem streamAuthInterceptor_rejects_exempt_method :
    StreamAuthInterceptor demoValidate [] (some []) ⟨"/v1.user.UserService/Register"⟩
        (fun _ (st : Unit) => (st, .ok ())) ()
      = ((), .error (.status .unauthenticated "no token provided"))
    ∧ StreamAuthInterceptor demoValidate [] (some []) ⟨"/v1.user.UserService/Register"⟩
        (fun _ (st : Unit) => (st, .ok ())) ()
      ≠ ((), .ok ()) := by
  refine ⟨rfl, fun h => ?_⟩
  exact Except.noConfusion (congrArg Prod.snd h)

/-- The supplied metadata carries no token that validates. -/
def NoValidToken (validate : String → Except String String) (md : Option Metadata) : Prop :=
  match md with
  | none => True
  | some m =>
    match m.get "authorization" with
    | [] => True
    | t :: _ => ∃ e, validate t = .error e

/-- C3 amended: any non-exempt unary call without a valid bearer token fails
Unauthenticated with the store untouched and the handler never invoked (the
result does not depend on the handler), and unary calls to the exempt methods
pass through unchanged; the stream interceptor enforces the same
token check on every stream call but has no exemption set, so no stream call
bypasses token inspection. -/
theorem authGate_blocks_calls_without_valid_token {σ α : Type}
    (validate : String → Except String String) (st : σ) :
    (∀ ctx md info (h : Context → σ → σ × Except GrpcError α),
        info.fullMethod ∈ exemptMethods →
        AuthInterceptor validate ctx md info h st = h ctx st)
    ∧ (∀ ctx md info (h : Context → σ → σ × Except GrpcError α),
        info.fullMethod ∉ exemptMethods → NoValidToken validate md →
        ∃ msg, AuthInterceptor validate ctx md info h st
            = (st, .error (.status .unauthenticated msg)))
    ∧ (∀ ctx md info (h : Context → σ → σ × Except GrpcError Unit),
        NoValidToken validate md →
        ∃ msg, StreamAuthInterceptor validate ctx md info h st
            = (st, .error (.status .unauthenticated msg))) := by
  refine ⟨?_, ?_, ?_⟩
  · intro ctx md info h hmem
    simp [AuthInterceptor, hmem]
  · intro ctx md info h hmem hnv
    cases md with
    | none =>
      exact ⟨"no metadata in context", by simp [AuthInterceptor, hmem]⟩
    | some m =>
      simp only [NoValidToken] at hnv
      cases hma : m.get "authorization" with
      | nil =>
        exact ⟨"no token provided", by simp [AuthInterceptor, hmem, hma]⟩
      | cons t ts =>
        simp only [hma] at hnv
        obtain ⟨e, he⟩ := hnv
        exact ⟨"invalid token: " ++ e, by simp [AuthInterceptor, hmem, hma, he]⟩
  · intro ctx md info h hnv
    cases md with
    | none =>
      exact ⟨"no metadata in context", by simp [StreamAuthInterceptor]⟩
    | some m =>
      simp only [NoValidToken] at hnv
      cases hma : m.get "authorization" with
      | nil =>
        exact ⟨"no token provided", by simp [StreamAuthInterceptor, hma]⟩
      | cons t ts =>
        simp only [hma] at hnv
        obtain ⟨e, he⟩ := hnv
        exact ⟨"invalid token: " ++ e, by simp [StreamAuthInterceptor, hma, he]⟩

/-- Witness for C3 amended at concrete calls: an exempt unary call passes
through, a non-exempt unary call without a token is rejected with the store
unchanged, and a stream call with an invalid token is rejected. -/
theorem authGate_blocks_calls_without_valid_token_witness :
    AuthInterceptor demoValidate [] (some [("authorization", [])])
        ⟨"/v1.user.UserService/Login"⟩
        (fun _ (st : Unit) => (st, .ok "handled")) () = ((), .ok "handled")
    ∧ (∃ msg, AuthInterceptor demoValidate [] none
        ⟨"/v1.vault.VaultService/GetVaultItems"⟩
        (fun _ (st : Unit) => (st, .ok "handled")) ()
        = ((), .error (.status .unauthenticated msg)))
    ∧ (∃ msg, StreamAuthInterceptor demoValidate [] (some [("authorization", ["bad"])])
        ⟨"/v1.user.UserService/Register"⟩
        (fun _ (st : Unit) => (st, .ok ())) ()
        = ((), .error (.status .unauthenticated msg))) :=
  have hmain := authGate_blocks_calls_without_valid_token (σ := Unit) (α := String)
      demoValidate ()
  ⟨hmain.1 [] (some [("authorization", [])]) ⟨"/v1.user.UserService/Login"⟩
      (fun _ st => (st, .ok "handled")) (by decide),
   hmain.2.1 [] none ⟨"/v1.vault.VaultService/GetVaultItems"⟩
      (fun _ st => (st, .ok "handled")) (by decide) trivial,
   hmain.2.2 [] (some [("authorization", ["bad"])]) ⟨"/v1.user.UserService/Register"⟩
      (fun _ st => (st, .ok ())) ⟨"token is malformed", rfl⟩⟩

/-- The card save request of the failing input of C1: the spec example card,
with the expiry in the 2006-01 layout the server parses. -/
def c1Request : SaveCardDataRequest :=
  ⟨"4111111111111111", "John Doe", "2025-12", "123"⟩

/-- C1 (code bug): the SaveCardData call succeeds and the subsequent
GetVaultItems by the same user returns the identical plaintext values, but
the persisted number and cvv bytes are exactly the plaintext bytes of the
request — the save path never calls the crypto package, so nothing is
encrypted at rest. -/
theorem saveCardData_persists_plaintext :
    (Api.SaveCardData emptyStore "user-1" "item-1" c1Request 5).2 = .ok "item-1"
    ∧ (Api.SaveCardData emptyStore "user-1" "item-1" c1Request 5).1.cardData.map
        (fun cd => (cd.number, cd.cvv)) = [(c1Request.number, c1Request.cvv)]
    ∧ Api.GetVaultItems (Api.SaveCardData emptyStore "user-1" "item-1" c1Request 5).1 "user-1"
      = .ok ⟨[], [], [],
          [⟨⟨"item-1", "user-1", 5, 5⟩, "4111111111111111", "John Doe", "2025-12", "123"⟩],
          []⟩ :=
  ⟨rfl, rfl, rfl⟩

/-- C5 counterexample: a Register call with empty login and empty password is
not rejected — the store is accessed and a user row with empty login and the
hash of the empty password is persisted, and the call succeeds. -/
theorem register_accepts_empty_credentials :
    (Register emptyUserRepo "" "" 0).2 = .ok ()
    ∧ (Register emptyUserRepo "" "" 0).1.users = [⟨"id-0", "", ⟨0, ""⟩⟩] :=
  ⟨rfl, rfl⟩

/-- C5 amended: Register performs no input validation — an empty login or
password is hashed and persisted like any other — and a taken login fails
with the raw store unique-constraint error, surfaced with code Unknown
rather than AlreadyExists, leaving the store unchanged; no token is issued
at this step (the register path never calls CreateToken and its response
carries none). -/
theorem register_no_validation_and_raw_duplicate_error
    (r : UserRepo) (login password : String) (salt : Nat) :
    ((¬ ∃ u ∈ r.users, u.login = login) →
        (Register r login password salt).1.users
            = r.users ++ [⟨"id-" ++ toString r.nextId, login, bcryptGenerate salt password⟩]
        ∧ (Register r login password salt).2 = .ok ())
    ∧ ((∃ u ∈ r.users, u.login = login) →
        (Register r login password salt).1 = r
        ∧ ∃ e, (Register r login password salt).2 = .error e ∧ e.code = .unknown) := by
  have hany : (r.users.any fun u => u.login == login) = true ↔ ∃ u ∈ r.users, u.login = login := by
    simp [List.any_eq_true]
  constructor
  · intro h
    have hfalse : (r.users.any fun u => u.login == login) = false := by
      rw [← Bool.not_eq_true, hany]
      exact h
    constructor <;> simp [Register, InsertUser, hfalse]
  · intro h
    have htrue : (r.users.any fun u => u.login == login) = true := hany.2 h
    refine ⟨by simp [Register, InsertUser, htrue], ?_⟩
    exact ⟨.plain "duplicate key value violates unique constraint",
      by simp [Register, InsertUser, htrue], rfl⟩

/-- Witness for C5 amended: a fresh login is inserted; registering the same
login again leaves the store unchanged and fails with code Unknown. -/
theorem register_no_validation_and_raw_duplicate_error_witness :
    ((Register emptyUserRepo "alice" "pw" 3).1.users
        = [⟨"id-0", "alice", bcryptGenerate 3 "pw"⟩]
      ∧ (Register emptyUserRepo "alice" "pw" 3).2 = .ok ())
    ∧ ((Register (Register emptyUserRepo "alice" "pw" 3).1 "alice" "pw2" 4).1
        = (Register emptyUserRepo "alice" "pw" 3).1
      ∧ ∃ e, (Register (Register emptyUserRepo "alice" "pw" 3).1 "alice" "pw2" 4).2
          = .error e ∧ e.code = .unknown) :=
  ⟨(register_no_validation_and_raw_duplicate_error emptyUserRepo "alice" "pw" 3).1
      (by simp [emptyUserRepo]),
   (register_no_validation_and_raw_duplicate_error
      (Register emptyUserRepo "alice" "pw" 3).1 "alice" "pw2" 4).2
      ⟨⟨"id-0", "alice", bcryptGenerate 3 "pw"⟩, by decide, rfl⟩⟩

/-- C6 counterexample: a Login call for an absent user fails with the raw
driver no-rows error, which gRPC surfaces with code Unknown — not with
Unauthenticated as the claim states. -/
theorem login_absent_user_error_is_not_unauthenticated :
    (Login emptyUserRepo ⟨"secret"⟩ "alice" "pw" 0).2
      = .error (.plain "no rows in result set")
    ∧ GrpcError.code (.plain "no rows in result set") ≠ .unauthenticated :=
  ⟨rfl, by decide⟩

/-- Every serialized token is a nonempty string. -/
theorem serialize_ne_empty (t : SignedToken) : t.serialize ≠ "" := by
  intro h
  have hl := congrArg String.length h
  have hfix : ("eyJhbGciOiJIUzI1NiJ9." : String).length = 21 := rfl
  have hempty : ("" : String).length = 0 := rfl
  simp only [SignedToken.serialize, String.length_append] at hl
  rw [hfix, hempty] at hl
  omega

/-- C6 amended: an absent user and a password mismatch both fail, but with
the raw library errors, surfaced with code Unknown rather than
Unauthenticated; on success Login returns the serialized token minted by
CreateToken with a fixed 24 hour ttl (86400 seconds between issue and
expiry), and this token is never the empty string. -/
theorem login_raw_errors_and_token_ttl
    (r : UserRepo) (st : AuthState) (login password : String) (now : Nat) :
    (GetUserByLogin r login = none →
        ∃ e, (Login r st login password now).2 = .error e ∧ e.code = .unknown)
    ∧ (∀ u, GetUserByLogin r login = some u →
        bcryptCompare u.password password = false →
        ∃ e, (Login r st login password now).2 = .error e ∧ e.code = .unknown)
    ∧ (∀ u, GetUserByLogin r login = some u →
        bcryptCompare u.password password = true →
        (Login r st login password now).2 = .ok (CreateToken st u.id 86400 now).2.serialize
        ∧ (CreateToken st u.id 86400 now).2.serialize ≠ ""
        ∧ (CreateToken st u.id 86400 now).2.expiresAt
            = (CreateToken st u.id 86400 now).2.issuedAt + 86400) := by
  refine ⟨?_, ?_, ?_⟩
  · intro h
    exact ⟨.plain "no rows in result set", by simp [Login, h], rfl⟩
  · intro u hu hcmp
    exact ⟨.plain "crypto/bcrypt: hashedPassword is not the hash of the given password",
      by simp [Login, hu, hcmp], rfl⟩
  · intro u hu hcmp
    refine ⟨by simp [Login, hu, hcmp], serialize_ne_empty _, by simp [CreateToken]⟩

/-- Witness for C6 amended: the registered user alice logs in with the right
password and obtains the nonempty 24 hour token; with a wrong password and
for an absent user the error code is Unknown. -/
theorem login_raw_errors_and_token_ttl_witness :
    (∃ e, (Login (Register emptyUserRepo "alice" "pw" 3).1 ⟨"secret"⟩ "bob" "pw" 7).2
        = .error e ∧ e.code = .unknown)
    ∧ (∃ e, (Login (Register emptyUserRepo "alice" "pw" 3).1 ⟨"secret"⟩ "alice" "wrong" 7).2
        = .error e ∧ e.code = .unknown)
    ∧ ((Login (Register emptyUserRepo "alice" "pw" 3).1 ⟨"secret"⟩ "alice" "pw" 7).2
        = .ok (CreateToken ⟨"secret"⟩ "id-0" 86400 7).2.serialize
      ∧ (CreateToken ⟨"secret"⟩ "id-0" 86400 7).2.serialize ≠ ""
      ∧ (CreateToken ⟨"secret"⟩ "id-0" 86400 7).2.expiresAt
          = (CreateToken ⟨"secret"⟩ "id-0" 86400 7).2.issuedAt + 86400) :=
  have h := login_raw_errors_and_token_ttl
      (Register emptyUserRepo "alice" "pw" 3).1 ⟨"secret"⟩
  ⟨(h "bob" "pw" 7).1 rfl,
   (h "alice" "wrong" 7).2.1 ⟨"id-0", "alice", bcryptGenerate 3 "pw"⟩ rfl rfl,
   (h "alice" "pw" 7).2.2 ⟨"id-0", "alice", bcryptGenerate 3 "pw"⟩ rfl rfl⟩

/-- C4: DeleteVaultItem always returns success; each recognized tag removes
exactly the rows of the named type carrying both the supplied id and the
callers user id, an unrecognized tag leaves the store untouched, and in
every case a row owned by a different user survives — one user can never
delete an item of another user even when supplying its exact id. -/
theorem deleteVaultItem_scoped_to_user_and_permissive
    (st : Store) (id userId itemType : String) :
    (Service.DeleteVaultItem st id userId itemType).2 = .ok ()
    ∧ (itemType = "login_password" →
        (Service.DeleteVaultItem st id userId itemType).1
          = { st with loginPasswords :=
                st.loginPasswords.filter fun r => !(r.id == id && r.userId == userId) })
    ∧ (itemType = "text" →
        (Service.DeleteVaultItem st id userId itemType).1
          = { st with textData :=
                st.textData.filter fun r => !(r.id == id && r.userId == userId) })
    ∧ (itemType = "binary" →
        (Service.DeleteVaultItem st id userId itemType).1
          = { st with binaryData :=
                st.binaryData.filter fun r => !(r.id == id && r.userId == userId) })
    ∧ (itemType = "card" →
        (Service.DeleteVaultItem st id userId itemType).1
          = { st with cardData :=
                st.cardData.filter fun r => !(r.id == id && r.userId == userId) })
    ∧ (itemType ∉ ["login_password", "text", "binary", "card"] →
        (Service.DeleteVaultItem st id userId itemType).1 = st)
    ∧ (∀ r ∈ st.loginPasswords, r.userId ≠ userId →
        r ∈ (Service.DeleteVaultItem st id userId itemType).1.loginPasswords)
    ∧ (∀ r ∈ st.textData, r.userId ≠ userId →
        r ∈ (Service.DeleteVaultItem st id userId itemType).1.textData)
    ∧ (∀ r ∈ st.binaryData, r.userId ≠ userId →
        r ∈ (Service.DeleteVaultItem st id userId itemType).1.binaryData)
    ∧ (∀ r ∈ st.cardData, r.userId ≠ userId →
        r ∈ (Service.DeleteVaultItem st id userId itemType).1.cardData) := by
  refine ⟨?_, ?_, ?_, ?_, ?_, ?_, ?_, ?_, ?_, ?_⟩
  · unfold Service.DeleteVaultItem
    split_ifs <;> rfl
  · intro h
    subst h
    unfold Service.DeleteVaultItem
    rw [if_pos rfl]
    rfl
  · intro h
    subst h
    unfold Service.DeleteVaultItem
    rw [if_neg (by decide), if_pos rfl]
    rfl
  · intro h
    subst h
    unfold Service.DeleteVaultItem
    rw [if_neg (by decide), if_neg (by decide), if_pos rfl]
    rfl
  · intro h
    subst h
    unfold Service.DeleteVaultItem
    rw [if_neg (by decide), if_neg (by decide), if_neg (by decide), if_pos rfl]
    rfl
  · intro h
    simp only [List.mem_cons, List.mem_singleton, List.not_mem_nil, not_or, or_false] at h
    obtain ⟨h1, h2, h3, h4⟩ := h
    unfold Service.DeleteVaultItem
    rw [if_neg h1, if_neg h2, if_neg h3, if_neg h4]
  · intro r hr hne
    unfold Service.DeleteVaultItem
    split_ifs <;>
      simp_all [Repo.DeleteLoginPassword, Repo.DeleteTextData, Repo.DeleteBinaryData,
        Repo.DeleteCardData, List.mem_filter]
  · intro r hr hne
    unfold Service.DeleteVaultItem
    split_ifs <;>
      simp_all [Repo.DeleteLoginPassword, Repo.DeleteTextData, Repo.DeleteBinaryData,
        Repo.DeleteCardData, List.mem_filter]
  · intro r hr hne
    unfold Service.DeleteVaultItem
    split_ifs <;>
      simp_all [Repo.DeleteLoginPassword, Repo.DeleteTextData, Repo.DeleteBinaryData,
        Repo.DeleteCardData, List.mem_filter]
  · intro r hr hne
    unfold Service.DeleteVaultItem
    split_ifs <;>
      simp_all [Repo.DeleteLoginPassword, Repo.DeleteTextData, Repo.DeleteBinaryData,
        Repo.DeleteCardData, List.mem_filter]

/-- A store holding two text rows that share the id i1 but belong to the two
different users u1 and u2. -/
def c4Store : Store :=
  ⟨[], [⟨"i1", "u1", "hello", 0, 0⟩, ⟨"i1", "u2", "other", 0, 0⟩], [], [], []⟩

/-- Witness for C4: deleting (i1, text) as u2 succeeds, removes exactly the
text row of u2, keeps the row of u1 with the same id, and an unrecognized
tag leaves the store untouched. -/
theorem deleteVaultItem_scoped_to_user_and_permissive_witness :
    (Service.DeleteVaultItem c4Store "i1" "u2" "text").2 = .ok ()
    ∧ (Service.DeleteVaultItem c4Store "i1" "u2" "text").1
        = { c4Store with textData :=
              c4Store.textData.filter fun r => !(r.id == "i1" && r.userId == "u2") }
    ∧ TextRow.mk "i1" "u1" "hello" 0 0
        ∈ (Service.DeleteVaultItem c4Store "i1" "u2" "text").1.textData
    ∧ (Service.DeleteVaultItem c4Store "i1" "u2" "color").1 = c4Store :=
  have h := deleteVaultItem_scoped_to_user_and_permissive c4Store "i1" "u2" "text"
  have h2 := deleteVaultItem_scoped_to_user_and_permissive c4Store "i1" "u2" "color"
  ⟨h.1, h.2.2.1 rfl,
   h.2.2.2.2.2.2.2.1 (TextRow.mk "i1" "u1" "hello" 0 0) (by decide) (by decide),
   h2.2.2.2.2.2.1 (by decide)⟩

/-- Membership after an assignment into the response meta map: the entry is
the assigned one or was already present. -/
theorem mem_metaMapInsert {acc : List (String × ProtoMeta)} {k : String} {v : ProtoMeta}
    {p : String × ProtoMeta} (hp : p ∈ Api.metaMapInsert acc k v) :
    p = (k, v) ∨ p ∈ acc := by
  unfold Api.metaMapInsert at hp
  split at hp
  · obtain ⟨q, hq, hpq⟩ := List.mem_map.1 hp
    by_cases h : (q.1 == k) = true
    · left
      rw [← hpq]
      simp [h]
    · right
      rw [← hpq]
      simpa [h] using hq
  · rcases List.mem_append.1 hp with h | h
    · right
      exact h
    · left
      simpa using h

/-- Folding preserves a predicate that every step preserves for the elements
of the folded list. -/
theorem foldl_mem_induction {β γ : Type} (f : γ → β → γ) (Q : γ → Prop)
    (l : List β) : ∀ acc : γ, Q acc → (∀ a b, b ∈ l → Q a → Q (f a b)) →
    Q (l.foldl f acc) := by
  induction l with
  | nil =>
    intro acc hacc _
    simpa using hacc
  | cons b t ih =>
    intro acc hacc hf
    simp only [List.foldl_cons]
    exact ih (f acc b) (hf acc b (by simp) hacc)
      (fun a c hc ha => hf a c (by simp [hc]) ha)

/-- Every meta row inside the service aggregate comes from the meta table. -/
theorem mem_service_meta {st : Store} {userId : String} {q : String × List MetaRow}
    (hq : q ∈ (Service.GetVaultItems st userId).meta) : ∀ m ∈ q.2, m ∈ st.metas := by
  intro m hm
  simp only [Service.GetVaultItems] at hq
  obtain ⟨i, hi, hfi⟩ := List.mem_filterMap.1 hq
  split at hfi
  · cases hfi
  · cases hfi
    exact (List.mem_filter.1 hm).1

/-- C8 amended: the service-level aggregate keys meta lists by item id, but
the RPC response flattens it into a map keyed by the id of each meta row
itself, carrying the attached item id only inside the entry: every entry of
the response meta map is the proto of a stored meta row under that rows own
id. -/
theorem getVaultItems_response_meta_keyed_by_meta_id
    (st : Store) (userId : String) (resp : GetVaultItemsResponse)
    (hresp : Api.GetVaultItems st userId = .ok resp) :
    ∀ p ∈ resp.meta, ∃ m, m ∈ st.metas ∧ p.1 = m.id ∧ p.2 = protoOfMeta m := by
  have hmeta : resp.meta = (Service.GetVaultItems st userId).meta.foldl
      (fun acc q => q.2.foldl (fun acc2 m => Api.metaMapInsert acc2 m.id (protoOfMeta m)) acc)
      [] := by
    simp only [Api.GetVaultItems, Except.ok.injEq] at hresp
    rw [← hresp]
  rw [hmeta]
  refine foldl_mem_induction _
    (fun (acc : List (String × ProtoMeta)) =>
      ∀ p ∈ acc, ∃ m, m ∈ st.metas ∧ p.1 = m.id ∧ p.2 = protoOfMeta m)
    (Service.GetVaultItems st userId).meta [] (by simp) ?_
  intro acc q hq hacc
  refine foldl_mem_induction _
    (fun (acc2 : List (String × ProtoMeta)) =>
      ∀ p ∈ acc2, ∃ m, m ∈ st.metas ∧ p.1 = m.id ∧ p.2 = protoOfMeta m)
    q.2 acc hacc ?_
  intro acc2 m hm hacc2 p hp
  rcases mem_metaMapInsert hp with hpe | hpin
  · exact ⟨m, mem_service_meta hq m hm, by rw [hpe], by rw [hpe]⟩
  · exact hacc2 p hpin

/-- A store holding one text item of user-1 and one meta row attached to it,
with distinct ids for the item and the meta row. -/
def c8Store : Store :=
  ⟨[], [⟨"item-1", "user-1", "note", 0, 0⟩], [], [],
   [⟨"meta-7", "item-1", "k", "v", 0, 0⟩]⟩

/-- C8 counterexample: the meta map of the GetVaultItems response has the
single key meta-7 — the id of the meta row itself — and not the id item-1 of
the vault item the row attaches to. -/
theorem getVaultItems_response_meta_key_is_not_item_id :
    (Api.GetVaultItems c8Store "user-1").map (fun resp => resp.meta.map Prod.fst)
      = .ok ["meta-7"]
    ∧ "meta-7" ≠ "item-1" :=
  ⟨rfl, by decide⟩

/-- Witness for C8 amended at the concrete store: the single response entry
is keyed by the id of the stored meta row. -/
theorem getVaultItems_response_meta_keyed_by_meta_id_witness :
    ∃ m, m ∈ c8Store.metas ∧ ("meta-7" : String) = m.id
      ∧ protoOfMeta (MetaRow.mk "meta-7" "item-1" "k" "v" 0 0) = protoOfMeta m :=
  getVaultItems_response_meta_keyed_by_meta_id c8Store "user-1"
    ⟨[], [⟨⟨"item-1", "user-1", 0, 0⟩, "note"⟩], [], [],
     [("meta-7", protoOfMeta (MetaRow.mk "meta-7" "item-1" "k" "v" 0 0))]⟩ rfl
    ("meta-7", protoOfMeta (MetaRow.mk "meta-7" "item-1" "k" "v" 0 0)) (by decide)

/-- Inserting meta rows one by one appends them, with both timestamps set to
the insertion time, to the meta table. -/
theorem foldl_insertMeta_metas (now : Nat) :
    ∀ (rows : List MetaRow) (st : Store),
      (rows.foldl (fun s m => Repo.InsertMeta s m now) st).metas
        = st.metas ++ rows.map fun m => { m with createdAt := now, updatedAt := now } := by
  intro rows
  induction rows with
  | nil =>
    intro st
    simp
  | cons m t ih =>
    intro st
    simp only [List.foldl_cons, List.map_cons]
    rw [ih]
    simp [Repo.InsertMeta]

/-- Any meta row whose relation equals one of the item ids of a user shows up
in the meta aggregate of that users GetVaultItems. -/
theorem metaForItem_in_aggregate (st : Store) (userId i : String) (m : MetaRow)
    (hi : i ∈ Service.itemIds st userId) (hm : m ∈ st.metas) (hrel : m.relation = i) :
    ∃ ms, (i, ms) ∈ (Service.GetVaultItems st userId).meta ∧ m ∈ ms := by
  have hmem : m ∈ Repo.GetMetaForItem st i :=
    List.mem_filter.2 ⟨hm, by simp [hrel]⟩
  refine ⟨Repo.GetMetaForItem st i, ?_, hmem⟩
  simp only [Service.GetVaultItems]
  refine List.mem_filterMap.2 ⟨i, hi, ?_⟩
  have hne : (Repo.GetMetaForItem st i).isEmpty = false := by
    cases hfe : Repo.GetMetaForItem st i with
    | nil =>
      rw [hfe] at hmem
      cases hmem
    | cons a l => rfl
  simp [hne]

/-- C10: SaveMeta appends each entry verbatim to the meta table with the
caller-supplied item id as its relation — no check that the item exists or
belongs to the caller — and meta retrieval filters by relation alone, so a
meta row whose relation equals an item id of another user is returned by
that users GetVaultItems. -/
theorem saveMeta_unchecked_relations_leak_across_users
    (st : Store) (entries : List SaveMetaEntry) (freshIds : List String) (now : Nat) :
    ((Api.SaveMeta st entries freshIds now).1.metas
        = st.metas ++ (entries.zip freshIds).map
            (fun (p : SaveMetaEntry × String) =>
              MetaRow.mk p.2 p.1.itemId p.1.key p.1.value now now)
      ∧ (Api.SaveMeta st entries freshIds now).2 = .ok ())
    ∧ (∀ owner i m,
        i ∈ Service.itemIds (Api.SaveMeta st entries freshIds now).1 owner →
        m ∈ (Api.SaveMeta st entries freshIds now).1.metas → m.relation = i →
        ∃ ms, (i, ms)
            ∈ (Service.GetVaultItems (Api.SaveMeta st entries freshIds now).1 owner).meta
          ∧ m ∈ ms) := by
  refine ⟨⟨?_, rfl⟩, ?_⟩
  · simp only [Api.SaveMeta, Service.SaveMeta]
    rw [foldl_insertMeta_metas]
    simp [List.map_map, Function.comp]
  · intro owner i m hi hm hrel
    exact metaForItem_in_aggregate _ owner i m hi hm hrel

/-- A store holding one text item of user-2 and nothing else. -/
def c10Store : Store :=
  ⟨[], [⟨"item-9", "user-2", "x", 0, 0⟩], [], [], []⟩

/-- Witness for C10: a meta entry saved with relation item-9 — an item of
user-2, by a caller whose identity plays no part in the rows — is returned
by GetVaultItems for user-2. -/
theorem saveMeta_unchecked_relations_leak_across_users_witness :
    ((Api.SaveMeta c10Store [⟨"k", "v", "item-9"⟩] ["meta-1"] 3).1.metas
        = [MetaRow.mk "meta-1" "item-9" "k" "v" 3 3]
      ∧ (Api.SaveMeta c10Store [⟨"k", "v", "item-9"⟩] ["meta-1"] 3).2 = .ok ())
    ∧ ∃ ms, ("item-9", ms)
          ∈ (Service.GetVaultItems
              (Api.SaveMeta c10Store [⟨"k", "v", "item-9"⟩] ["meta-1"] 3).1 "user-2").meta
        ∧ MetaRow.mk "meta-1" "item-9" "k" "v" 3 3 ∈ ms :=
  have h := saveMeta_unchecked_relations_leak_across_users
      c10Store [⟨"k", "v", "item-9"⟩] ["meta-1"] 3
  ⟨⟨by rw [h.1.1]; rfl, h.1.2⟩,
   h.2 "user-2" "item-9" (MetaRow.mk "meta-1" "item-9" "k" "v" 3 3)
      (by decide) (by decide) rfl⟩

end GophKeeper
